import Mathlib

/-!
Verification of the CnC tracing layer of this repository against its
natural-language specification.

The development shallowly embeds the Python sources:

* `cutlass/cnc/symint.py` — `SymInt` (a frozen dataclass wrapping a sympy
  expression) and the `SymCoord` coordinate type
  (`SymInt | int | None | tuple of SymCoord`);
* `cutlass/cnc/scheduler.py` — `tag_push`, the slot-binding operation;
* `cutlass/cnc/ast.py` — `AstGraphVisitor`, the diagram flattener;
* `cutlass/cnc_dsl/graph/cnc_graph.py`, `kernel.py`, `loop.py`, `step.py` —
  the graph builder (`CnCContext`, `KernelBuilder`, `LoopState`, `StepState`);
* `cutlass/cnc_dsl/steps.py` — step definitions and tag retrieval.

Python object state is modelled by explicit heaps (functions from object
indices), Python `is` by index equality, Python dictionaries by association
lists with insert-or-replace update, and Python exceptions by an error sum;
functions that mutate before raising return the mutated state together with
the error, mirroring the statement order of the source.
-/


/-- Python exceptions raised by the embedded code, by raise site. -/
inductive PyErr where
  /-- `NameError: name 'sp' is not defined` (undefined global). -/
  | nameErrorSp : PyErr
  /-- `RuntimeError` from `CnCContext.register_node` (node id already set). -/
  | runtimeDupNode : PyErr
  /-- `ValueError` from `CnCContext.register_node` (same object in registry). -/
  | valueNodeInRegistry : PyErr
  /-- `ValueError` from `CnCContext.register_kernel` (already in a kernel). -/
  | valueNestedKernel : PyErr
  /-- `ValueError` from `CnCContext.register_kernel` (kernel id already set). -/
  | valueDupKernel : PyErr
  /-- `ValueError` from `CnCContext.exit_kernel` (not in a kernel). -/
  | valueNotInKernel : PyErr
  /-- `KeyError` from `CnCContext.current_kernel` (missing registry entry). -/
  | keyErrorKernel : PyErr
  /-- `DSLRuntimeError` from `KernelBuilder.add_step` (outside kernel scope). -/
  | dslAddStepOutOfScope : PyErr
  /-- `DSLRuntimeError` from `KernelBuilder.add_loop` (outside kernel scope). -/
  | dslAddLoopOutOfScope : PyErr
  /-- `DSLRuntimeError` from `KernelBuilder.exit_loop` (current is grid loop). -/
  | dslExitGridLoop : PyErr
  /-- `DSLRuntimeError` from `KernelBuilder.exit_loop` (loop has no parent). -/
  | dslLoopNoParent : PyErr
  /-- `DSLRuntimeError` from `KernelBuilder.exit_kernel` (not in kernel scope). -/
  | dslExitNotInScope : PyErr
  /-- `DSLRuntimeError` from `KernelBuilder.exit_kernel` (not in grid loop). -/
  | dslExitNotGridLoop : PyErr
  /-- `AttributeError` from dereferencing a `None` field. -/
  | attributeErrorNone : PyErr
  /-- `ValueError` from `steps.step` (tag is None). -/
  | valueTagRequired : PyErr
  /-- `ValueError` from `Step._retrive_tag_from_args` (tag not a parameter). -/
  | valueTagNotParam : PyErr
  /-- `IndexError` from `args[param_list.index(...)]`. -/
  | indexErrorArgs : PyErr
  deriving DecidableEq, Repr

/-! ## Symbolic values (`cutlass/cnc/symint.py`)

`SymInt` wraps a `sympy.Expr`.  Sympy expressions are modelled as syntax
trees; the claims below use only constructor-level facts about them
(structural equality of identical subtrees), which sympy's canonical-form
structural `==` satisfies. -/

/-- Model of the `sympy.Expr` payload of a `SymInt`. -/
inductive SymExpr where
  | intE (n : Int) : SymExpr
  | symE (name : String) : SymExpr
  | addE (a b : SymExpr) : SymExpr
  | subE (a b : SymExpr) : SymExpr
  | mulE (a b : SymExpr) : SymExpr
  | divE (a b : SymExpr) : SymExpr
  | modE (a b : SymExpr) : SymExpr
  | powE (a b : SymExpr) : SymExpr
  | negE (a : SymExpr) : SymExpr
  | floorE (a : SymExpr) : SymExpr
  deriving DecidableEq, Repr

/-- `SymInt` from `symint.py`: a frozen dataclass holding one sympy
expression.  Dataclass equality compares the `expr` fields. -/
structure SymInt where
  expr : SymExpr
  deriving DecidableEq, Repr

/-- The names bound at top level in the module `cutlass/cnc/symint.py`:
its imports (`annotations`, `ast`, `Union`, `Optional`, `Tuple`,
`dataclass`, `sympy`) and its own definitions.  Notably the module imports
`sympy` but never binds the name `sp`. -/
def symintModuleBinds (name : String) : Bool :=
  name ∈ ["annotations", "ast", "Union", "Optional", "Tuple", "dataclass",
          "sympy", "SymCoord", "SymTile", "SymInt", "symcoord_to_ast",
          "SymIntSource"]

namespace SymInt

/-- `SymInt.__add__`: `SymInt(self.expr + other.expr)`. -/
def add (a b : SymInt) : Except PyErr SymInt :=
  .ok ⟨.addE a.expr b.expr⟩

/-- `SymInt.__sub__`: `SymInt(self.expr - other.expr)`. -/
def sub (a b : SymInt) : Except PyErr SymInt :=
  .ok ⟨.subE a.expr b.expr⟩

/-- `SymInt.__mul__`: `SymInt(self.expr * other.expr)`. -/
def mul (a b : SymInt) : Except PyErr SymInt :=
  .ok ⟨.mulE a.expr b.expr⟩

/-- `SymInt.__floordiv__`: the body is
`return SymInt(sp.floor(self.expr / self._coerce(other).expr))`.
Python first resolves the global name `sp`; the module binds `sympy`, not
`sp`, so the lookup raises `NameError` before anything is computed. -/
def floordiv (a b : SymInt) : Except PyErr SymInt :=
  if symintModuleBinds "sp" then .ok ⟨.floorE (.divE a.expr b.expr)⟩
  else .error .nameErrorSp

/-- `SymInt.__mod__`: `SymInt(self.expr % other.expr)`. -/
def mod (a b : SymInt) : Except PyErr SymInt :=
  .ok ⟨.modE a.expr b.expr⟩

/-- `SymInt.__pow__`: `SymInt(self.expr ** other.expr)`. -/
def pow (a b : SymInt) : Except PyErr SymInt :=
  .ok ⟨.powE a.expr b.expr⟩

/-- `SymInt.__neg__`: `SymInt(-self.expr)`. -/
def neg (a : SymInt) : Except PyErr SymInt :=
  .ok ⟨.negE a.expr⟩

end SymInt

/-! ## Coordinates (`SymCoord`) and `tag_push` (`cutlass/cnc/scheduler.py`) -/

/-- `SymCoord` from `symint.py`: `Union[SymInt, int, None, Tuple[SymCoord]]`.
`noneC` is the Python `None` sentinel marking an unbound slot. -/
inductive SymCoord where
  | noneC : SymCoord
  | intC (n : Int) : SymCoord
  | symIntC (v : SymInt) : SymCoord
  | tupC (items : List SymCoord) : SymCoord
  deriving Repr

namespace SymCoord

/-- Decidable equality on the `Int` payload. -/
def decEq' : (a b : Int) → Decidable (a = b) := fun _a _b => inferInstance

/-- Decidable equality on the `SymInt` payload. -/
def decEq'' : (a b : SymInt) → Decidable (a = b) := fun _a _b => inferInstance

mutual

/-- Decidable structural equality on coordinates (Python `==`). -/
def decEq : (a b : SymCoord) → Decidable (a = b)
  | .noneC, .noneC => isTrue rfl
  | .noneC, .intC _ => isFalse (fun h => SymCoord.noConfusion h)
  | .noneC, .symIntC _ => isFalse (fun h => SymCoord.noConfusion h)
  | .noneC, .tupC _ => isFalse (fun h => SymCoord.noConfusion h)
  | .intC _, .noneC => isFalse (fun h => SymCoord.noConfusion h)
  | .intC a, .intC b =>
    match decEq' a b with
    | isTrue h => isTrue (by rw [h])
    | isFalse h => isFalse (fun he => by injection he with h1; exact h h1)
  | .intC _, .symIntC _ => isFalse (fun h => SymCoord.noConfusion h)
  | .intC _, .tupC _ => isFalse (fun h => SymCoord.noConfusion h)
  | .symIntC _, .noneC => isFalse (fun h => SymCoord.noConfusion h)
  | .symIntC _, .intC _ => isFalse (fun h => SymCoord.noConfusion h)
  | .symIntC a, .symIntC b =>
    match decEq'' a b with
    | isTrue h => isTrue (by rw [h])
    | isFalse h => isFalse (fun he => by injection he with h1; exact h h1)
  | .symIntC _, .tupC _ => isFalse (fun h => SymCoord.noConfusion h)
  | .tupC _, .noneC => isFalse (fun h => SymCoord.noConfusion h)
  | .tupC _, .intC _ => isFalse (fun h => SymCoord.noConfusion h)
  | .tupC _, .symIntC _ => isFalse (fun h => SymCoord.noConfusion h)
  | .tupC a, .tupC b =>
    match decEqList a b with
    | isTrue h => isTrue (by rw [h])
    | isFalse h => isFalse (fun he => by injection he with h1; exact h h1)

/-- Decidable equality on child lists of coordinates. -/
def decEqList : (a b : List SymCoord) → Decidable (a = b)
  | [], [] => isTrue rfl
  | [], _ :: _ => isFalse (fun h => List.noConfusion h)
  | _ :: _, [] => isFalse (fun h => List.noConfusion h)
  | a :: as, b :: bs =>
    match decEq a b, decEqList as bs with
    | isTrue h1, isTrue h2 => isTrue (by rw [h1, h2])
    | isFalse h1, _ => isFalse (fun he => by injection he with e1 e2; exact h1 e1)
    | _, isFalse h2 => isFalse (fun he => by injection he with e1 e2; exact h2 e2)

end

instance : DecidableEq SymCoord := SymCoord.decEq

/-- `isinstance(item, tuple)`. -/
def isTuple : SymCoord → Bool
  | .tupC _ => true
  | _ => false

end SymCoord

mutual

/-- `tag_push` from `cutlass/cnc/scheduler.py`, statement by statement:
`None` tag returns the target; a `SymInt` tag is returned unchanged; a tuple
is rebuilt by `tagPushItems` starting with `replaced = False`; anything else
(e.g. a plain `int`) falls through to the final `return tag`. -/
def tag_push (tag target : SymCoord) : SymCoord :=
  match tag with
  | .noneC => target
  | .symIntC _ => tag
  | .tupC items => .tupC (tagPushItems items target false)
  | .intC _ => tag

/-- The `for item in tag` loop of `tag_push` with its `replaced` flag:
an unreplaced `None` item becomes `target`; an unreplaced tuple item is
recursively pushed into and `replaced` is set when the recursion changed it
(`new_item != item`, Python structural equality); all other items are kept. -/
def tagPushItems (items : List SymCoord) (target : SymCoord)
    (replaced : Bool) : List SymCoord :=
  match items with
  | [] => []
  | item :: rest =>
    if replaced = false ∧ item = .noneC then
      target :: tagPushItems rest target true
    else if replaced = false ∧ item.isTuple = true then
      let newItem := tag_push item target
      newItem :: tagPushItems rest target (if newItem ≠ item then true else replaced)
    else
      item :: tagPushItems rest target replaced

end

mutual

/-- Modelled from the spec (§4.1 `bind`): whether a coordinate contains an
unbound (`None`) slot anywhere. -/
def hasUnbound : SymCoord → Bool
  | .noneC => true
  | .tupC items => hasUnboundList items
  | _ => false

/-- Modelled from the spec: `hasUnbound` over a composite's children. -/
def hasUnboundList : List SymCoord → Bool
  | [] => false
  | x :: xs => hasUnbound x || hasUnboundList xs

end

mutual

/-- Modelled from the spec (§4.1 `bind`): replace the first unbound slot,
found by a depth-first, left-to-right, pre-order search that recurses into
composite children before moving to later siblings, by `v`; if the
coordinate itself is the unbound leaf the result is `v`; a coordinate with
no unbound slot is returned unchanged. -/
def bindSpec (c v : SymCoord) : SymCoord :=
  match c with
  | .noneC => v
  | .tupC items => .tupC (bindSpecList items v)
  | x => x

/-- Modelled from the spec: the left-to-right search over a composite's
children; the first child containing an unbound slot is rebound, all
others are kept structurally identical. -/
def bindSpecList (items : List SymCoord) (v : SymCoord) : List SymCoord :=
  match items with
  | [] => []
  | x :: rest =>
    if hasUnbound x then bindSpec x v :: rest
    else x :: bindSpecList rest v

end

/-! ## The graph builder (`cutlass/cnc_dsl/graph/`)

`CnCContext` declares `node_registry`, `_next_node_id`, `kernel_registry`,
`_next_kernel_id` and `_current_kernel_id` in its class body and its
`__init__` sets no instance attributes, so reads fall back to the class
attribute until the first `self.x = ...` (or `self.x += ...`) creates an
instance attribute shadowing it.  The shared class-level dictionaries are
mutated in place and hence visible to every instance.

The embedding keeps one `World`:
* node objects (`LoopState` / `StepState`) live in a heap indexed by `Nat`;
  Python `is` on them is index equality;
* `KernelBuilder` objects live in a second heap;
* context instances are indexed by `Nat`; their instance-attribute
  dictionaries are partial maps (`Option` = attribute not yet created);
* Python dictionaries are association lists with insert-or-replace update
  (insertion order preserved, as in CPython). -/

/-- Kind of a `CnCNode` object (its Python class). -/
inductive NodeKind where
  | gridLoop : NodeKind
  | kernelLoop : NodeKind
  | step : NodeKind
  deriving DecidableEq, Repr

/-- Insert-or-replace update of an association list, as a Python dict
assignment `d[k] = v`: an existing key is overwritten in place, a new key
is appended. -/
def dictSet (d : List (Nat × Nat)) (k v : Nat) : List (Nat × Nat) :=
  match d with
  | [] => [(k, v)]
  | (k', v') :: rest =>
    if k' = k then (k, v) :: rest else (k', v') :: dictSet rest k v

/-- Python dict lookup `d[k]` (as an `Option`). -/
def dictGet (d : List (Nat × Nat)) (k : Nat) : Option Nat :=
  match d with
  | [] => none
  | (k', v') :: rest => if k' = k then some v' else dictGet rest k

/-- Pointwise update of a heap/attribute map. -/
def fnSet {α : Type} (f : Nat → α) (k : Nat) (v : α) : Nat → α :=
  fun x => if x = k then v else f x

/-- The mutable state of the whole `cnc_dsl.graph` object graph. -/
structure World where
  /-- `CnCNode.id` of node object `n` (`None` until registered). -/
  nodeId : Nat → Option Nat
  /-- `CnCNode.parent` of node object `n`. -/
  nodeParent : Nat → Option Nat
  /-- `LoopState.inner_nodes` of node object `n`. -/
  nodeInner : Nat → List Nat
  /-- The Python class of node object `n`. -/
  nodeKind : Nat → NodeKind
  /-- `CnCNode.tag` of node object `n` (`SymCoord.noneC` models `None`). -/
  nodeTag : Nat → SymCoord
  /-- `LoopState.target` of node object `n` (the induction `SymInt`). -/
  nodeTarget : Nat → SymExpr
  /-- `StepState.name` of node object `n`. -/
  nodeName : Nat → String
  /-- Class attribute `CnCContext._next_node_id`. -/
  classNextNodeId : Nat
  /-- Instance attribute `_next_node_id` of context `c`, once created. -/
  instNextNodeId : Nat → Option Nat
  /-- Class attribute `CnCContext._next_kernel_id`. -/
  classNextKernelId : Nat
  /-- Instance attribute `_next_kernel_id` of context `c`, once created. -/
  instNextKernelId : Nat → Option Nat
  /-- Instance attribute `_current_kernel_id` of context `c`: `none` while
  only the class default (`None`) exists, `some v` once assigned. -/
  instCurrentKernelId : Nat → Option (Option Nat)
  /-- The shared class-level dict `CnCContext.node_registry`. -/
  nodeRegistry : List (Nat × Nat)
  /-- The shared class-level dict `CnCContext.kernel_registry`. -/
  kernelRegistry : List (Nat × Nat)
  /-- `KernelBuilder.id` of kernel object `k`. -/
  kbId : Nat → Option Nat
  /-- `KernelBuilder.name` of kernel object `k`. -/
  kbName : Nat → String
  /-- `KernelBuilder._grid_loop` of kernel object `k` (a node index). -/
  kbGrid : Nat → Nat
  /-- `KernelBuilder._current_loop` of kernel object `k`. -/
  kbCurrentLoop : Nat → Option Nat
  /-- `KernelBuilder.in_kernel_scope` of kernel object `k`. -/
  kbInScope : Nat → Bool

/-- Reading `self._next_node_id` on context `c`: the instance attribute if
present, else the class attribute. -/
def effNextNodeId (w : World) (c : Nat) : Nat :=
  (w.instNextNodeId c).getD w.classNextNodeId

/-- Reading `self._next_kernel_id` on context `c`. -/
def effNextKernelId (w : World) (c : Nat) : Nat :=
  (w.instNextKernelId c).getD w.classNextKernelId

/-- Reading `self._current_kernel_id` on context `c` (class default `None`). -/
def effCurrentKernelId (w : World) (c : Nat) : Option Nat :=
  (w.instCurrentKernelId c).getD none

/-- The scan `for existing in self.node_registry.values(): if existing is
node` from `register_node`. -/
def registryHasNode (w : World) (n : Nat) : Bool :=
  w.nodeRegistry.any (fun kv => kv.2 = n)

/-- The two statements `node.id = self._next_node_id` and
`self._next_node_id += 1` of `register_node`: the augmented assignment
reads the class attribute through the instance and writes a new instance
attribute, leaving the class counter untouched. -/
def assignNodeId (w : World) (c n : Nat) : World :=
  { w with
    nodeId := fnSet w.nodeId n (some (effNextNodeId w c)),
    instNextNodeId := fnSet w.instNextNodeId c (some (effNextNodeId w c + 1)) }

/-- `CnCContext.register_node(self, node)`: raise `RuntimeError` if
`node.id` is already set; otherwise assign `node.id = self._next_node_id`
and increment the counter (creating the instance attribute); then raise
`ValueError` if the same object is already a value of the shared registry
(after those two mutations, mirroring statement order); otherwise store the
node under its id.  Returns the updated world and the assigned id. -/
def registerNode (w : World) (c n : Nat) : World × Except PyErr Nat :=
  if (w.nodeId n).isSome then (w, .error .runtimeDupNode)
  else if registryHasNode (assignNodeId w c n) n then
    (assignNodeId w c n, .error .valueNodeInRegistry)
  else
    ({ assignNodeId w c n with
        nodeRegistry := dictSet w.nodeRegistry (effNextNodeId w c) n },
     .ok (effNextNodeId w c))

/-- `CnCContext.current_kernel` (property): `None` when no kernel id is
set, otherwise the registry entry (`KeyError` if the id is missing). -/
def currentKernelObj (w : World) (c : Nat) : Except PyErr (Option Nat) :=
  match effCurrentKernelId w c with
  | none => .ok none
  | some kid =>
    match dictGet w.kernelRegistry kid with
    | none => .error .keyErrorKernel
    | some kb => .ok (some kb)

/-- `LoopState.add_step` / the loop half of `add_loop`: append the child to
`inner_nodes` and set its parent back-reference. -/
def loopAddChild (w : World) (loopIdx child : Nat) : World :=
  { w with
    nodeInner := fnSet w.nodeInner loopIdx (w.nodeInner loopIdx ++ [child]),
    nodeParent := fnSet w.nodeParent child (some loopIdx) }

/-- `KernelBuilder.add_step`: guard the kernel scope, then delegate to the
current loop (`AttributeError` if `_current_loop` is `None`). -/
def kbAddStep (w : World) (k n : Nat) : World × Except PyErr Unit :=
  if w.kbInScope k = false then (w, .error .dslAddStepOutOfScope)
  else
    match w.kbCurrentLoop k with
    | none => (w, .error .attributeErrorNone)
    | some l => (loopAddChild w l n, .ok ())

/-- `KernelBuilder.add_loop`: guard the kernel scope, append under the
current loop, then make the new loop current. -/
def kbAddLoop (w : World) (k n : Nat) : World × Except PyErr Unit :=
  if w.kbInScope k = false then (w, .error .dslAddLoopOutOfScope)
  else
    match w.kbCurrentLoop k with
    | none => (w, .error .attributeErrorNone)
    | some l =>
      ({ loopAddChild w l n with
          kbCurrentLoop := fnSet w.kbCurrentLoop k (some n) }, .ok ())

/-- `CnCContext.register_step`: register the node, then — only if a kernel
is currently open — add it to that kernel. -/
def registerStep (w : World) (c n : Nat) : World × Except PyErr Nat :=
  match registerNode w c n with
  | (w1, .error e) => (w1, .error e)
  | (w1, .ok nid) =>
    match currentKernelObj w1 c with
    | .error e => (w1, .error e)
    | .ok none => (w1, .ok nid)
    | .ok (some kb) =>
      match kbAddStep w1 kb n with
      | (w2, .ok _) => (w2, .ok nid)
      | (w2, .error e) => (w2, .error e)

/-- `CnCContext.register_loop`: register the node, then — only if a kernel
is currently open — add it to that kernel. -/
def registerLoop (w : World) (c n : Nat) : World × Except PyErr Nat :=
  match registerNode w c n with
  | (w1, .error e) => (w1, .error e)
  | (w1, .ok nid) =>
    match currentKernelObj w1 c with
    | .error e => (w1, .error e)
    | .ok none => (w1, .ok nid)
    | .ok (some kb) =>
      match kbAddLoop w1 kb n with
      | (w2, .ok _) => (w2, .ok nid)
      | (w2, .error e) => (w2, .error e)

/-- `CnCContext.register_kernel`: refuse a nested kernel and a reused
builder; assign the kernel id, store the builder in the shared kernel
registry, register the grid loop (note `_current_kernel_id` is still unset
at that point, so the grid loop is not attached to any kernel), and only
then set `_current_kernel_id`.  `kernelPreRegister` is the id-assignment
and registry-store prefix of the method, before the grid loop is
registered. -/
def kernelPreRegister (w : World) (c k : Nat) : World :=
  { w with
    kbId := fnSet w.kbId k (some (effNextKernelId w c)),
    instNextKernelId := fnSet w.instNextKernelId c (some (effNextKernelId w c + 1)),
    kernelRegistry := dictSet w.kernelRegistry (effNextKernelId w c) k }

/-- The rest of `CnCContext.register_kernel` (see `kernelPreRegister`). -/
def registerKernel (w : World) (c k : Nat) : World × Except PyErr Nat :=
  match effCurrentKernelId w c with
  | some _ => (w, .error .valueNestedKernel)
  | none =>
    if (w.kbId k).isSome then (w, .error .valueDupKernel)
    else
      match registerLoop (kernelPreRegister w c k) c (w.kbGrid k) with
      | (w2, .error e) => (w2, .error e)
      | (w2, .ok _) =>
        ({ w2 with
            instCurrentKernelId :=
              fnSet w2.instCurrentKernelId c (some (some (effNextKernelId w c))) },
         .ok (effNextKernelId w c))

/-- `CnCContext.exit_kernel`: raise if no kernel is open, otherwise clear
`_current_kernel_id`.  The kernel's loop-scope pointer is not consulted. -/
def ctxExitKernel (w : World) (c : Nat) : World × Except PyErr Unit :=
  match effCurrentKernelId w c with
  | none => (w, .error .valueNotInKernel)
  | some _ =>
    ({ w with instCurrentKernelId := fnSet w.instCurrentKernelId c (some none) },
     .ok ())

/-- `KernelBuilder.exit_loop`: refuse to pop past the grid loop or a loop
with no parent; otherwise the current loop becomes its parent. -/
def kbExitLoop (w : World) (k : Nat) : World × Except PyErr Unit :=
  if w.kbCurrentLoop k = some (w.kbGrid k) then (w, .error .dslExitGridLoop)
  else
    match w.kbCurrentLoop k with
    | none => (w, .error .attributeErrorNone)
    | some l =>
      match w.nodeParent l with
      | none => (w, .error .dslLoopNoParent)
      | some p =>
        ({ w with kbCurrentLoop := fnSet w.kbCurrentLoop k (some p) }, .ok ())

/-- `KernelBuilder.exit_kernel`: raise unless still in kernel scope and the
current loop is exactly the grid loop (both raises happen before any
mutation); on success leave the scope and clear the current loop. -/
def kbExitKernel (w : World) (k : Nat) : World × Except PyErr Unit :=
  if w.kbInScope k = false then (w, .error .dslExitNotInScope)
  else if w.kbCurrentLoop k ≠ some (w.kbGrid k) then
    (w, .error .dslExitNotGridLoop)
  else
    ({ w with
        kbInScope := fnSet w.kbInScope k false,
        kbCurrentLoop := fnSet w.kbCurrentLoop k none }, .ok ())

/-! ## Node-id allocation (C2, C9, C10) -/

/-- One public graph-builder operation, naming the context instance or
kernel builder it acts through. -/
inductive GraphOp where
  | regNode (c n : Nat) : GraphOp
  | regStep (c n : Nat) : GraphOp
  | regLoop (c n : Nat) : GraphOp
  | regKernel (c k : Nat) : GraphOp
  | exitKernelC (c : Nat) : GraphOp
  | exitLoopK (k : Nat) : GraphOp
  | exitKernelK (k : Nat) : GraphOp
  deriving DecidableEq, Repr

/-- Apply one operation; additionally report the node id it assigned (and
through which context), when it registered a node and succeeded. -/
def stepOp (w : World) : GraphOp → World × Option (Nat × Nat)
  | .regNode c n =>
    match registerNode w c n with
    | (w', .ok i) => (w', some (c, i))
    | (w', .error _) => (w', none)
  | .regStep c n =>
    match registerStep w c n with
    | (w', .ok i) => (w', some (c, i))
    | (w', .error _) => (w', none)
  | .regLoop c n =>
    match registerLoop w c n with
    | (w', .ok i) => (w', some (c, i))
    | (w', .error _) => (w', none)
  | .regKernel c k => ((registerKernel w c k).1, none)
  | .exitKernelC c => ((ctxExitKernel w c).1, none)
  | .exitLoopK k => ((kbExitLoop w k).1, none)
  | .exitKernelK k => ((kbExitKernel w k).1, none)

/-- Run a trace of graph operations, collecting the `(context, id)` pairs
of the successful node registrations in program order. -/
def runOps : World → List GraphOp → World × List (Nat × Nat)
  | w, [] => (w, [])
  | w, op :: ops =>
    match stepOp w op with
    | (w1, some p) =>
      let r := runOps w1 ops
      (r.1, p :: r.2)
    | (w1, none) => runOps w1 ops

/-- The ids assigned through context `c`, in registration order. -/
def idsOf (c : Nat) (l : List (Nat × Nat)) : List Nat :=
  (l.filter (fun p => p.1 = c)).map (fun p => p.2)

/-- A world with pristine `CnCContext` class state (counters zero, shared
dictionaries empty, no instance attributes) and two unregistered node
objects `0` and `1`. -/
def freshWorld : World where
  nodeId := fun _ => none
  nodeParent := fun _ => none
  nodeInner := fun _ => []
  nodeKind := fun _ => .step
  nodeTag := fun _ => .noneC
  nodeTarget := fun _ => .intE 0
  nodeName := fun _ => ""
  classNextNodeId := 0
  instNextNodeId := fun _ => none
  classNextKernelId := 0
  instNextKernelId := fun _ => none
  instCurrentKernelId := fun _ => none
  nodeRegistry := []
  kernelRegistry := []
  kbId := fun _ => none
  kbName := fun _ => ""
  kbGrid := fun _ => 0
  kbCurrentLoop := fun _ => none
  kbInScope := fun _ => false

/-! ## Kernel-scope discipline (C3, C4) -/

/-- A world in which context `0` has kernel `0` open and the kernel's
current scope is the nested loop object `1`, not its grid loop `0`. -/
def nestedScopeWorld : World :=
  { freshWorld with
    nodeKind := fun n => if n = 0 then .gridLoop else .kernelLoop,
    nodeId := fun n => if n ≤ 1 then some n else none,
    nodeParent := fun n => if n = 1 then some 0 else none,
    nodeInner := fun n => if n = 0 then [1] else [],
    kernelRegistry := [(0, 0)],
    kbId := fun _ => some 0,
    kbName := fun _ => "K",
    kbGrid := fun _ => 0,
    kbCurrentLoop := fun _ => some 1,
    kbInScope := fun _ => true,
    instCurrentKernelId := fun c => if c = 0 then some (some 0) else none }

/-! ## Textual dump (C7)

String rendering mirrors CPython: `str` of a `SymInt` falls back to its
`__repr__` (`SymInt(<expr>)`), `str(None)` is `"None"`, and tuple repr uses
`", "` separators with a trailing comma for 1-tuples. -/

/-- Rendering of the sympy expression inside a `SymInt`, as `str(expr)`
(symbols print as their name, integers in decimal; composite forms are
printed infix and do not occur in the dumped scenarios). -/
def symExprStr : SymExpr → String
  | .intE n => toString n
  | .symE s => s
  | .addE a b => symExprStr a ++ " + " ++ symExprStr b
  | .subE a b => symExprStr a ++ " - " ++ symExprStr b
  | .mulE a b => symExprStr a ++ "*" ++ symExprStr b
  | .divE a b => symExprStr a ++ "/" ++ symExprStr b
  | .modE a b => symExprStr a ++ " % " ++ symExprStr b
  | .powE a b => symExprStr a ++ "**" ++ symExprStr b
  | .negE a => "-" ++ symExprStr a
  | .floorE a => "floor(" ++ symExprStr a ++ ")"

mutual

/-- Python `repr`/`str` of a `SymCoord`: `None`, decimal integers,
`SymInt(<expr>)` (the dataclass `__repr__`), and tuple syntax with a
trailing comma for 1-tuples. -/
def pyStrCoord : SymCoord → String
  | .noneC => "None"
  | .intC n => toString n
  | .symIntC v => "SymInt(" ++ symExprStr v.expr ++ ")"
  | .tupC [] => "()"
  | .tupC [x] => "(" ++ pyStrCoord x ++ ",)"
  | .tupC (x :: y :: rest) =>
    "(" ++ pyStrCoord x ++ pyStrCoordRest (y :: rest) ++ ")"

/-- The `", "`-separated remaining elements of a tuple repr. -/
def pyStrCoordRest : List SymCoord → String
  | [] => ""
  | x :: rest => ", " ++ pyStrCoord x ++ pyStrCoordRest rest

end

/-- `f"{x}"` for an `int | None` field. -/
def pyOptNatStr : Option Nat → String
  | none => "None"
  | some n => toString n

/-- `__repr__` of a node object: `GridLoopState`, `KernelLoopState` and
`StepState` reprs from `loop.py` and `step.py` (a step's repr embeds its
origin's repr `<Step> <name>`). -/
def nodeReprStr (w : World) (n : Nat) : String :=
  match w.nodeKind n with
  | .gridLoop =>
    "<GridLoop> SymInt(" ++ symExprStr (w.nodeTarget n) ++ ") [" ++
      pyStrCoord (w.nodeTag n) ++ "]"
  | .kernelLoop =>
    "<KernelLoop> SymInt(" ++ symExprStr (w.nodeTarget n) ++ ") [" ++
      pyStrCoord (w.nodeTag n) ++ "]"
  | .step =>
    "<Step> " ++ w.nodeName n ++ " [" ++ pyStrCoord (w.nodeTag n) ++ "]"

/-- `LoopState.dump` / `StepState.dump`: a step dumps one line
`<repr> id=<id>`; a loop dumps its own line followed by each inner node's
dump lines prefixed with one tab.  `fuel` bounds the recursion depth
through the node heap (ample for every finite tree; the traced trees are
finite by construction). -/
def dumpNode (w : World) : Nat → Nat → List String
  | 0, _ => []
  | fuel + 1, n =>
    match w.nodeKind n with
    | .step => [nodeReprStr w n ++ " id=" ++ pyOptNatStr (w.nodeId n)]
    | _ =>
      (nodeReprStr w n ++ " id=" ++ pyOptNatStr (w.nodeId n)) ::
        ((w.nodeInner n).map (fun m => dumpNode w fuel m)).flatten.map
          (fun s => "\t" ++ s)

/-- `KernelBuilder.dump`, split at its `"\n"` separators: the kernel's own
repr line followed by the grid loop's dump lines. -/
def kernelDumpLines (w : World) (k fuel : Nat) : List String :=
  ("[[[Kernel]]] " ++ w.kbName k ++ " (id=" ++ pyOptNatStr (w.kbId k) ++ ")") ::
    dumpNode w fuel (w.kbGrid k)

/-- Start of the C7 scenario: pristine class state; node `0` is the grid
loop created by `create_from_kernel_launch` (target `tile0`, first draw
from the shared `SymIntSource(prefix="tile")`), node `1` the loop opened by
`open_loop` (target `tile1`), node `2` the step of `defA` recorded with
tag `(0,)`; kernel builder `0` is named `K` with grid loop `0` current. -/
def c7Start : World :=
  { freshWorld with
    nodeKind := fun n => if n = 0 then .gridLoop
      else if n = 1 then .kernelLoop else .step,
    nodeTarget := fun n => if n = 0 then .symE "tile0" else .symE "tile1",
    nodeTag := fun n => if n = 2 then .tupC [.intC 0] else .noneC,
    nodeName := fun _ => "defA",
    kbName := fun _ => "K",
    kbGrid := fun _ => 0,
    kbCurrentLoop := fun _ => some 0,
    kbInScope := fun _ => true }

/-- C7 world after `open_kernel("K")`. -/
def c7W1 : World := (registerKernel c7Start 0 0).1

/-- C7 world after `open_loop()`. -/
def c7W2 : World := (registerLoop c7W1 0 1).1

/-- C7 world after `record_step(defA, tag=(0,))`. -/
def c7W3 : World := (registerStep c7W2 0 2).1

/-- C7 world after `close_loop()`. -/
def c7W4 : World := (kbExitLoop c7W3 0).1

/-- C7 world after `close_kernel()`. -/
def c7W5 : World := (ctxExitKernel c7W4 0).1

/-! ## The diagram flattener (C6, `cutlass/cnc/ast.py`)

`AstGraphVisitor` only handles `Module` and `For` nodes (its docstring);
the drawn leaf steps of this repository are `AstExtension`-wrapped
`ast.Module` objects and the loops are wrapped `ast.For` objects.
`get_target_label` reads the `target`/`targets` attribute: an `ast.For`
always has `target` (rendered by `ast.unparse`), an `ast.Module` has
neither, so its label is `None`. -/

/-- An `AstExtension`-aware AST node: `ext` is `isinstance(node,
AstExtension)` (`should_process`), `vis` is `_visualize`.  A `forN` carries
the unparse of its induction `target`; a `moduleN` has no target. -/
inductive AstNode where
  | forN (ext vis : Bool) (target : String) (body : List AstNode) : AstNode
  | moduleN (ext vis : Bool) (body : List AstNode) : AstNode

namespace AstNode

/-- `should_process`: `isinstance(node, AstExtension)`. -/
def shouldProcess : AstNode → Bool
  | .forN ext _ _ _ => ext
  | .moduleN ext _ _ => ext

/-- `isinstance(stmt, ast.For)`. -/
def isFor : AstNode → Bool
  | .forN _ _ _ _ => true
  | .moduleN _ _ _ => false

/-- `get_target_label`: `ast.unparse(node.target)` for a `For`; `None` for
a `Module` (no `target`/`targets` attribute). -/
def targetLabel : AstNode → Option String
  | .forN _ _ t _ => some t
  | .moduleN _ _ _ => none

end AstNode

/-- One Graphviz edge drawn by the visitor: source and destination node
ids, optional text label, and whether it was drawn with
`constraint="false"` (the loop back-edge). -/
structure GEdge where
  src : Nat
  dst : Nat
  label : Option String
  backEdge : Bool
  deriving DecidableEq, Repr

/-- The visitor state threaded through a traversal: the id counter, the
`visible_ids` list and the edges drawn so far. -/
structure VState where
  counter : Nat
  visibleIds : List Nat
  edges : List GEdge
  deriving DecidableEq, Repr

/-- Draw a node: allocate `str(self.counter)` as its id, append it to
`visible_ids`, and if there is a parent draw the edge from the parent with
the pending edge label. -/
def drawNode (st : VState) (parent : Option Nat) (elabel : Option String) :
    VState × Nat :=
  ({ counter := st.counter + 1,
     visibleIds := st.visibleIds ++ [st.counter],
     edges := st.edges ++ (match parent with
       | some p => [⟨p, st.counter, elabel, false⟩]
       | none => []) }, st.counter)

mutual

/-- `visit_node_with_context` composed with the dispatched `visit_Module` /
`visit_For`: visit `n` with the given parent id and pending edge label and
return the updated state together with the resulting `last_id`. -/
def visitAst (st : VState) (n : AstNode) (parent : Option Nat)
    (elabel : Option String) : VState × Option Nat :=
  match n with
  | .moduleN ext vis body =>
    if ext = false then (st, none)
    else
      let drawn := if vis then
          some (drawNode st parent elabel) else none
      let st1 := match drawn with | some d => d.1 | none => st
      let myId : Option Nat := match drawn with | some d => some d.2 | none => none
      let currentParent := match myId with | some i => some i | none => parent
      let (st2, lastChild) := visitModuleBody st1 body currentParent none
      (st2, match lastChild with
        | some c => some c
        | none => match myId with | some i => some i | none => parent)
  | .forN ext vis target body =>
    if ext = false then (st, none)
    else
      let drawn := if vis then
          some (drawNode st parent elabel) else none
      let st1 := match drawn with | some d => d.1 | none => st
      let myId : Option Nat := match drawn with | some d => some d.2 | none => none
      let currentParent := match myId with | some i => some i | none => parent
      let (st2, lastBody) := visitForBody st1 body currentParent none (some target)
      let st3 := match myId, lastBody with
        | some mi, some lb =>
          if lb ≠ mi then { st2 with edges := st2.edges ++ [⟨lb, mi, none, true⟩] }
          else st2
        | _, _ => st2
      (st3, match lastBody with
        | some lb => some lb
        | none => match myId with | some i => some i | none => parent)

/-- The body chain of `visit_Module`: statements are visited sequentially,
each drawn child becomes the next predecessor, edge labels stay `None`. -/
def visitModuleBody (st : VState) (stmts : List AstNode) (prev : Option Nat)
    (lastChild : Option Nat) : VState × Option Nat :=
  match stmts with
  | [] => (st, lastChild)
  | s :: rest =>
    if s.shouldProcess = false then visitModuleBody st rest prev lastChild
    else
      let (st1, cid) := visitAst st s prev none
      match cid with
      | some c => visitModuleBody st1 rest (some c) (some c)
      | none => visitModuleBody st1 rest prev lastChild

/-- The body chain of `visit_For` with its `label_owner`: `ownerLabel` is
`get_target_label(label_owner)`, initially the loop's own induction target;
each drawn child's incoming edge is labeled with it; after a drawn non-`For`
statement the owner becomes that statement (whose target label for the
repository's `Module` steps is `None`); a `For` statement leaves the owner
unchanged. -/
def visitForBody (st : VState) (stmts : List AstNode) (prev : Option Nat)
    (lastBody : Option Nat) (ownerLabel : Option String) : VState × Option Nat :=
  match stmts with
  | [] => (st, lastBody)
  | s :: rest =>
    if s.shouldProcess = false then visitForBody st rest prev lastBody ownerLabel
    else
      let (st1, cid) := visitAst st s prev ownerLabel
      match cid with
      | some c =>
        if s.isFor then visitForBody st1 rest (some c) (some c) ownerLabel
        else visitForBody st1 rest (some c) (some c) s.targetLabel
      | none => visitForBody st1 rest prev lastBody ownerLabel

end

/-- The initial visitor state of `_ast_to_graph`. -/
def vInit : VState := ⟨0, [], []⟩

/-- C6 demo: a drawn step (`AstExtension`-wrapped `ast.Module`). -/
def demoStep : AstNode := .moduleN true true []

/-- C6 demo: the nested loop `NestedLoop{StepB}` with induction target `k`. -/
def demoNested : AstNode := .forN true true "k" [demoStep]

/-- C6 demo: an outer loop with induction target `ij` whose body is
`[NestedLoop{StepB}, StepC]`. -/
def demoOuter : AstNode := .forN true true "ij" [demoNested, demoStep]

/-- C6 demo: an outer loop with body `[StepA, NestedLoop{StepB}, StepC]`
(the claim's scenario). -/
def demoOuter3 : AstNode := .forN true true "ij" [demoStep, demoNested, demoStep]

/-! ## Step definitions and tag retrieval (C5, `cutlass/cnc_dsl/steps.py`) -/

/-- Python truthiness of a coordinate/tag value: `None` and `0` and the
empty tuple are falsy; a `SymInt` (a plain dataclass without `__bool__`)
is truthy. -/
def pyTruthy : SymCoord → Bool
  | .noneC => false
  | .intC n => n ≠ 0
  | .symIntC _ => true
  | .tupC l => !l.isEmpty

/-- A constructed step definition: the function's name, its declared
parameter list (what `inspect.signature` reports), and the tag source
stored by `Step.__init__` (`_tag_name` for a string tag, `_static_tag`
otherwise). -/
structure StepDef where
  name : String
  params : List String
  tagName : Option String
  staticTag : Option SymCoord
  deriving DecidableEq, Repr

/-- The tag handling of the `step` decorator (`steps.step` plus
`Step.__init__`): a `None` tag is rejected; a string tag is stored as
`_tag_name`, any other tag as `_static_tag`.  Neither the decorator nor the
constructor consults the function's parameter list (the remaining decorator
checks concern the external jit machinery, not parameter names). -/
def stepCreate (funcName : String) (params : List String)
    (tag : Option (String ⊕ SymCoord)) : Except PyErr StepDef :=
  match tag with
  | none => .error .valueTagRequired
  | some (.inl s) => .ok ⟨funcName, params, some s, none⟩
  | some (.inr t) => .ok ⟨funcName, params, none, some t⟩

/-- Keyword-argument lookup (`self._tag_name in kwargs`). -/
def lookupKw : List (String × SymCoord) → String → Option SymCoord
  | [], _ => none
  | (k, v) :: rest, tn => if k = tn then some v else lookupKw rest tn

/-- The dynamic part of `Step._retrive_tag_from_args`: try kwargs, then the
positional argument at the tag parameter's index, else raise `ValueError`
(`Tag ... is not a parameter of ...`). -/
def retrieveTagDynamic (s : StepDef) (args : List SymCoord)
    (kwargs : List (String × SymCoord)) : Except PyErr SymCoord :=
  match s.tagName with
  | some tn =>
    match lookupKw kwargs tn with
    | some v => .ok v
    | none =>
      if tn ∈ s.params then
        match args.get? (s.params.indexOf tn) with
        | some a => .ok a
        | none => .error .indexErrorArgs
      else .error .valueTagNotParam
  | none => .error .valueTagNotParam

/-- `Step._retrive_tag_from_args`, called at step invocation time from
`lift_step`: a truthy static tag wins, otherwise the tag is resolved
dynamically from the call's arguments. -/
def retrieveTag (s : StepDef) (args : List SymCoord)
    (kwargs : List (String × SymCoord)) : Except PyErr SymCoord :=
  match s.staticTag with
  | some t => if pyTruthy t then .ok t else retrieveTagDynamic s args kwargs
  | none => retrieveTagDynamic s args kwargs

/-! ## Theorems -/

/-- With the `replaced` flag already set, the loop of `tag_push` copies the
remaining items unchanged. -/
theorem tagPushItems_replaced (items : List SymCoord) (target : SymCoord) :
    tagPushItems items target true = items := by
  induction items with
  | nil => simp [tagPushItems]
  | cons x xs ih => simp [tagPushItems, ih]

/-- List step for `tag_push_none_target`, with the element fact supplied. -/
theorem tagPushItems_none_target (xs : List SymCoord)
    (ih : ∀ x ∈ xs, tag_push x .noneC = x) :
    tagPushItems xs .noneC false = xs := by
  induction xs with
  | nil => rfl
  | cons x rest ihrest =>
    have hx := ih x (by simp)
    have hrest := ihrest (fun y hy => ih y (by simp [hy]))
    by_cases hnone : x = SymCoord.noneC
    · subst hnone
      simp [tagPushItems, tagPushItems_replaced]
    · by_cases htup : x.isTuple = true
      · simp [tagPushItems, hnone, htup, hx, hrest]
      · simp [tagPushItems, hnone, htup, hrest]

/-- Pushing `None` into any coordinate returns it structurally unchanged. -/
theorem tag_push_none_target (c : SymCoord) : tag_push c .noneC = c := by
  have main : ∀ n c, sizeOf c ≤ n → tag_push c SymCoord.noneC = c := by
    intro n
    induction n with
    | zero => intro c hc; cases c <;> simp_all
    | succ n ih =>
      intro c hc
      match c with
      | .noneC => rfl
      | .intC k => rfl
      | .symIntC v => rfl
      | .tupC items =>
        have hitems : sizeOf items ≤ n := by simp at hc; omega
        simp only [tag_push]
        congr 1
        refine tagPushItems_none_target items (fun x hx => ih x ?_)
        have := List.sizeOf_lt_of_mem hx
        omega
  exact main (sizeOf c) c le_rfl

/-- List step for `bindSpec_none_target`. -/
theorem bindSpecList_none_target (xs : List SymCoord)
    (ih : ∀ x ∈ xs, bindSpec x .noneC = x) :
    bindSpecList xs .noneC = xs := by
  induction xs with
  | nil => rfl
  | cons x rest ihrest =>
    have hx := ih x (by simp)
    have hrest := ihrest (fun y hy => ih y (by simp [hy]))
    by_cases hu : hasUnbound x
    · simp [bindSpecList, hu, hx]
    · simp [bindSpecList, hu, hrest]

/-- Rebinding with `None` is the structural identity on the spec side. -/
theorem bindSpec_none_target (c : SymCoord) : bindSpec c .noneC = c := by
  have main : ∀ n c, sizeOf c ≤ n → bindSpec c SymCoord.noneC = c := by
    intro n
    induction n with
    | zero => intro c hc; cases c <;> simp_all
    | succ n ih =>
      intro c hc
      match c with
      | .noneC => rfl
      | .intC k => rfl
      | .symIntC v => rfl
      | .tupC items =>
        have hitems : sizeOf items ≤ n := by simp at hc; omega
        simp only [bindSpec]
        congr 1
        refine bindSpecList_none_target items (fun x hx => ih x ?_)
        have := List.sizeOf_lt_of_mem hx
        omega
  exact main (sizeOf c) c le_rfl

/-- List step for `bindSpec_of_not_hasUnbound`. -/
theorem bindSpecList_of_not_hasUnbound (v : SymCoord) (xs : List SymCoord)
    (ih : ∀ x ∈ xs, hasUnbound x = false → bindSpec x v = x)
    (hu : hasUnboundList xs = false) :
    bindSpecList xs v = xs := by
  induction xs with
  | nil => rfl
  | cons x rest ihrest =>
    simp only [hasUnboundList, Bool.or_eq_false_iff] at hu
    have hrest := ihrest (fun y hy => ih y (by simp [hy])) hu.2
    simp [bindSpecList, hu.1, hrest]

/-- A coordinate with no unbound slot is left unchanged by the spec bind. -/
theorem bindSpec_of_not_hasUnbound (c v : SymCoord) (h : hasUnbound c = false) :
    bindSpec c v = c := by
  have main : ∀ n c, sizeOf c ≤ n → hasUnbound c = false → bindSpec c v = c := by
    intro n
    induction n with
    | zero => intro c hc; cases c <;> simp_all
    | succ n ih =>
      intro c hc hu
      match c with
      | .noneC => simp [hasUnbound] at hu
      | .intC k => rfl
      | .symIntC w => rfl
      | .tupC items =>
        have hitems : sizeOf items ≤ n := by simp at hc; omega
        simp only [hasUnbound] at hu
        simp only [bindSpec]
        congr 1
        refine bindSpecList_of_not_hasUnbound v items (fun x hx => ih x ?_) hu
        have := List.sizeOf_lt_of_mem hx
        omega
  exact main (sizeOf c) c le_rfl h

/-- List step for `bindSpec_ne_of_hasUnbound`. -/
theorem bindSpecList_ne_of_hasUnbound (v : SymCoord) (xs : List SymCoord)
    (ih : ∀ x ∈ xs, hasUnbound x = true → bindSpec x v ≠ x)
    (hu : hasUnboundList xs = true) :
    bindSpecList xs v ≠ xs := by
  induction xs with
  | nil => simp [hasUnboundList] at hu
  | cons x rest ihrest =>
    simp only [hasUnboundList, Bool.or_eq_true] at hu
    by_cases hux : hasUnbound x = true
    · have := ih x (by simp) hux
      simp [bindSpecList, hux, this]
    · have hutail : hasUnboundList rest = true := by
        rcases hu with h | h
        · exact absurd h hux
        · exact h
      have := ihrest (fun y hy => ih y (by simp [hy])) hutail
      simp [bindSpecList, hux, this]

/-- Rebinding a coordinate that does contain an unbound slot with a
non-`None` value changes it structurally. -/
theorem bindSpec_ne_of_hasUnbound (c v : SymCoord) (hu : hasUnbound c = true)
    (hv : v ≠ .noneC) : bindSpec c v ≠ c := by
  have main : ∀ n c, sizeOf c ≤ n → hasUnbound c = true → bindSpec c v ≠ c := by
    intro n
    induction n with
    | zero => intro c hc; cases c <;> simp_all
    | succ n ih =>
      intro c hc hu
      match c with
      | .noneC => simpa [bindSpec] using hv
      | .intC k => simp [hasUnbound] at hu
      | .symIntC w => simp [hasUnbound] at hu
      | .tupC items =>
        have hitems : sizeOf items ≤ n := by simp at hc; omega
        simp only [hasUnbound] at hu
        simp only [bindSpec, ne_eq, SymCoord.tupC.injEq]
        refine bindSpecList_ne_of_hasUnbound v items (fun x hx => ih x ?_) hu
        have := List.sizeOf_lt_of_mem hx
        omega
  exact main (sizeOf c) c le_rfl hu

/-- List step for `tag_push_eq_bindSpec` (non-`None` target). -/
theorem tagPushItems_eq_bindSpecList (v : SymCoord) (hv : v ≠ .noneC)
    (xs : List SymCoord)
    (ih : ∀ x ∈ xs, tag_push x v = bindSpec x v) :
    tagPushItems xs v false = bindSpecList xs v := by
  induction xs with
  | nil => rfl
  | cons x rest ihrest =>
    have hx := ih x (by simp)
    have hrest := ihrest (fun y hy => ih y (by simp [hy]))
    by_cases hnone : x = SymCoord.noneC
    · subst hnone
      simp [tagPushItems, bindSpecList, hasUnbound, bindSpec,
        tagPushItems_replaced]
    · by_cases htup : x.isTuple = true
      · by_cases hux : hasUnbound x = true
        · have hne : bindSpec x v ≠ x := bindSpec_ne_of_hasUnbound x v hux hv
          simp [tagPushItems, hnone, htup, hx, hne, hux, bindSpecList,
            tagPushItems_replaced]
        · have hid : bindSpec x v = x :=
            bindSpec_of_not_hasUnbound x v (by simpa using hux)
          simp [tagPushItems, hnone, htup, hx, hid, hux, bindSpecList, hrest]
      · have hux : hasUnbound x = false := by
          cases x <;> simp_all [hasUnbound, SymCoord.isTuple]
        simp [tagPushItems, hnone, htup, hux, bindSpecList, hrest]

/-- `tag_push` computes exactly the spec's first-unbound-slot rebinding. -/
theorem tag_push_eq_bindSpec (c v : SymCoord) : tag_push c v = bindSpec c v := by
  by_cases hv : v = SymCoord.noneC
  · subst hv; rw [tag_push_none_target, bindSpec_none_target]
  · have main : ∀ n c, sizeOf c ≤ n → tag_push c v = bindSpec c v := by
      intro n
      induction n with
      | zero => intro c hc; cases c <;> simp_all
      | succ n ih =>
        intro c hc
        match c with
        | .noneC => rfl
        | .intC k => rfl
        | .symIntC w => rfl
        | .tupC items =>
          have hitems : sizeOf items ≤ n := by simp at hc; omega
          simp only [tag_push, bindSpec]
          congr 1
          refine tagPushItems_eq_bindSpecList v hv items (fun x hx => ih x ?_)
          have := List.sizeOf_lt_of_mem hx
          omega
    exact main (sizeOf c) c le_rfl

/-- C1: `bind(C, V)` (= `tag_push`) replaces exactly the first unbound slot
of `C`, found by depth-first, left-to-right, pre-order search recursing into
tuple children before later siblings, by `V`, leaving every other slot
structurally identical (stated as agreement with the spec-side `bindSpec`);
if `C` itself is the unbound leaf the result is `V` directly; if `C`
contains no unbound slot the result is `C` itself, a no-op. -/
theorem tag_push_binds_first_unbound_slot (c v : SymCoord) :
    tag_push c v = bindSpec c v ∧
    tag_push .noneC v = v ∧
    (hasUnbound c = false → tag_push c v = c) := by
  refine ⟨tag_push_eq_bindSpec c v, rfl, ?_⟩
  intro h
  rw [tag_push_eq_bindSpec c v]
  exact bindSpec_of_not_hasUnbound c v h

/-- Witness for C1 at concrete inputs: binding `(i, (None, None), None)`
with `7` fills the first nested unbound slot, and a fully bound coordinate
is returned unchanged. -/
theorem tag_push_binds_first_unbound_slot_witness :
    tag_push (.tupC [.symIntC ⟨.symE "i"⟩, .tupC [.noneC, .noneC], .noneC])
        (.intC 7) =
      .tupC [.symIntC ⟨.symE "i"⟩, .tupC [.intC 7, .noneC], .noneC] ∧
    tag_push (.tupC [.symIntC ⟨.symE "i"⟩]) (.intC 7) =
      .tupC [.symIntC ⟨.symE "i"⟩] := by
  constructor
  · have h := tag_push_binds_first_unbound_slot
      (.tupC [.symIntC ⟨.symE "i"⟩, .tupC [.noneC, .noneC], .noneC]) (.intC 7)
    rw [h.1]; decide
  · exact (tag_push_binds_first_unbound_slot
      (.tupC [.symIntC ⟨.symE "i"⟩]) (.intC 7)).2.2 (by decide)

/-- C8 (code bug): on `SymInt` operands, add, subtract, multiply, modulo,
power and negate all complete and produce a new `SymInt`, but floor-divide
always raises `NameError`: its body reads the global `sp`, which the module
never binds (it imports `sympy`).  Evaluated at `SymInt('a') // SymInt('b')`. -/
theorem symint_floordiv_raises_nameerror :
    SymInt.add ⟨.symE "a"⟩ ⟨.symE "b"⟩ = .ok ⟨.addE (.symE "a") (.symE "b")⟩ ∧
    SymInt.sub ⟨.symE "a"⟩ ⟨.symE "b"⟩ = .ok ⟨.subE (.symE "a") (.symE "b")⟩ ∧
    SymInt.mul ⟨.symE "a"⟩ ⟨.symE "b"⟩ = .ok ⟨.mulE (.symE "a") (.symE "b")⟩ ∧
    SymInt.mod ⟨.symE "a"⟩ ⟨.symE "b"⟩ = .ok ⟨.modE (.symE "a") (.symE "b")⟩ ∧
    SymInt.pow ⟨.symE "a"⟩ ⟨.symE "b"⟩ = .ok ⟨.powE (.symE "a") (.symE "b")⟩ ∧
    SymInt.neg ⟨.symE "a"⟩ = .ok ⟨.negE (.symE "a")⟩ ∧
    SymInt.floordiv ⟨.symE "a"⟩ ⟨.symE "b"⟩ = .error .nameErrorSp := by
  refine ⟨rfl, rfl, rfl, rfl, rfl, rfl, ?_⟩
  simp [SymInt.floordiv, symintModuleBinds]

theorem idsOf_cons (c c' i : Nat) (l : List (Nat × Nat)) :
    idsOf c ((c', i) :: l) = if c' = c then i :: idsOf c l else idsOf c l := by
  by_cases h : c' = c <;> simp [idsOf, h]

/-- No step of `register_node` ever decreases a context's effective
`_next_node_id` (the class attribute is never written; only the acting
context's instance attribute is, and only upward). -/
theorem effNextNodeId_assign_self (w : World) (c n : Nat) :
    effNextNodeId (assignNodeId w c n) c = effNextNodeId w c + 1 := by
  simp [assignNodeId, effNextNodeId, fnSet]

theorem effNextNodeId_assign (w : World) (c n c' : Nat) :
    effNextNodeId w c' ≤ effNextNodeId (assignNodeId w c n) c' := by
  by_cases hc : c' = c
  · subst hc; rw [effNextNodeId_assign_self]; omega
  · simp [assignNodeId, effNextNodeId, fnSet, hc]

/-- No step of `register_node` ever decreases a context's effective
`_next_node_id` (the class attribute is never written; only the acting
context's instance attribute is, and only upward). -/
theorem effNextNodeId_registerNode_le (w : World) (c' n c : Nat) :
    effNextNodeId w c ≤ effNextNodeId ((registerNode w c' n).1) c := by
  by_cases h1 : (w.nodeId n).isSome
  · simp [registerNode, h1]
  · by_cases h2 : registryHasNode (assignNodeId w c' n) n
    · simpa [registerNode, h1, h2] using effNextNodeId_assign w c' n c
    · have : effNextNodeId ({ assignNodeId w c' n with
          nodeRegistry := dictSet w.nodeRegistry (effNextNodeId w c') n }) c =
          effNextNodeId (assignNodeId w c' n) c := by
        simp [effNextNodeId, assignNodeId]
      simpa [registerNode, h1, h2, this] using effNextNodeId_assign w c' n c

/-- Successful registration on context `c` hands out exactly the context's
effective counter and leaves the counter one past the assigned id. -/
theorem registerNode_ok_counter (w : World) (c n : Nat) (w' : World) (i : Nat)
    (h : registerNode w c n = (w', .ok i)) :
    i = effNextNodeId w c ∧ effNextNodeId w' c = i + 1 := by
  by_cases h1 : (w.nodeId n).isSome
  · simp [registerNode, h1] at h
  · by_cases h2 : registryHasNode (assignNodeId w c n) n
    · simp [registerNode, h1, h2] at h
    · simp [registerNode, h1, h2] at h
      obtain ⟨hw, hi⟩ := h
      subst hw
      refine ⟨hi.symm, ?_⟩
      have : effNextNodeId ({ assignNodeId w c n with
          nodeRegistry := dictSet w.nodeRegistry (effNextNodeId w c) n }) c =
          effNextNodeId (assignNodeId w c n) c := by
        simp [effNextNodeId, assignNodeId]
      rw [this, effNextNodeId_assign_self, ← hi]

/-- C2: within a single `CnCContext` instance, the ids handed out by
`register_node` over any trace of registrations (interleaved with any other
contexts' registrations, across all node kinds) are strictly increasing in
registration order, hence pairwise distinct. -/
theorem effNextNodeId_loopAddChild (w : World) (l n c : Nat) :
    effNextNodeId (loopAddChild w l n) c = effNextNodeId w c := rfl

theorem effNextNodeId_kbAddStep (w : World) (k n c : Nat) :
    effNextNodeId ((kbAddStep w k n).1) c = effNextNodeId w c := by
  by_cases h1 : w.kbInScope k = false
  · simp [kbAddStep, h1]
  · cases h2 : w.kbCurrentLoop k <;>
      simp [kbAddStep, h1, h2, effNextNodeId_loopAddChild]

theorem effNextNodeId_kbAddLoop (w : World) (k n c : Nat) :
    effNextNodeId ((kbAddLoop w k n).1) c = effNextNodeId w c := by
  by_cases h1 : w.kbInScope k = false
  · simp [kbAddLoop, h1]
  · cases h2 : w.kbCurrentLoop k <;>
      simp [kbAddLoop, h1, h2, effNextNodeId, loopAddChild]

theorem effNextNodeId_registerStep_le (w : World) (c' n c : Nat) :
    effNextNodeId w c ≤ effNextNodeId ((registerStep w c' n).1) c := by
  rcases hr : registerNode w c' n with ⟨w1, r⟩
  have hmono : effNextNodeId w c ≤ effNextNodeId w1 c := by
    have h0 := effNextNodeId_registerNode_le w c' n c
    rw [hr] at h0
    exact h0
  cases r with
  | error e => simpa [registerStep, hr] using hmono
  | ok j =>
    cases hk : currentKernelObj w1 c' with
    | error e => simpa [registerStep, hr, hk] using hmono
    | ok o =>
      cases o with
      | none => simpa [registerStep, hr, hk] using hmono
      | some kb =>
        rcases ha : kbAddStep w1 kb n with ⟨w2, ra⟩
        have h2 : effNextNodeId w2 c = effNextNodeId w1 c := by
          have := effNextNodeId_kbAddStep w1 kb n c
          rw [ha] at this
          exact this
        cases ra <;> simp [registerStep, hr, hk, ha] <;> omega

theorem effNextNodeId_registerLoop_le (w : World) (c' n c : Nat) :
    effNextNodeId w c ≤ effNextNodeId ((registerLoop w c' n).1) c := by
  rcases hr : registerNode w c' n with ⟨w1, r⟩
  have hmono : effNextNodeId w c ≤ effNextNodeId w1 c := by
    have h0 := effNextNodeId_registerNode_le w c' n c
    rw [hr] at h0
    exact h0
  cases r with
  | error e => simpa [registerLoop, hr] using hmono
  | ok j =>
    cases hk : currentKernelObj w1 c' with
    | error e => simpa [registerLoop, hr, hk] using hmono
    | ok o =>
      cases o with
      | none => simpa [registerLoop, hr, hk] using hmono
      | some kb =>
        rcases ha : kbAddLoop w1 kb n with ⟨w2, ra⟩
        have h2 : effNextNodeId w2 c = effNextNodeId w1 c := by
          have := effNextNodeId_kbAddLoop w1 kb n c
          rw [ha] at this
          exact this
        cases ra <;> simp [registerLoop, hr, hk, ha] <;> omega

theorem registerStep_ok_counter (w : World) (c n : Nat) (w' : World) (i : Nat)
    (h : registerStep w c n = (w', .ok i)) :
    i = effNextNodeId w c ∧ effNextNodeId w' c = i + 1 := by
  rcases hr : registerNode w c n with ⟨w1, r⟩
  cases r with
  | error e => simp [registerStep, hr] at h
  | ok j =>
    obtain ⟨hj, hj1⟩ := registerNode_ok_counter w c n w1 j hr
    cases hk : currentKernelObj w1 c with
    | error e => simp [registerStep, hr, hk] at h
    | ok o =>
      cases o with
      | none =>
        simp [registerStep, hr, hk] at h
        obtain ⟨rfl, rfl⟩ := h
        exact ⟨hj, hj1⟩
      | some kb =>
        rcases ha : kbAddStep w1 kb n with ⟨w2, ra⟩
        have h2 : effNextNodeId w2 c = effNextNodeId w1 c := by
          have := effNextNodeId_kbAddStep w1 kb n c
          rw [ha] at this
          exact this
        cases ra with
        | error e => simp [registerStep, hr, hk, ha] at h
        | ok u =>
          simp [registerStep, hr, hk, ha] at h
          obtain ⟨rfl, rfl⟩ := h
          exact ⟨hj, by rw [h2]; exact hj1⟩

theorem registerLoop_ok_counter (w : World) (c n : Nat) (w' : World) (i : Nat)
    (h : registerLoop w c n = (w', .ok i)) :
    i = effNextNodeId w c ∧ effNextNodeId w' c = i + 1 := by
  rcases hr : registerNode w c n with ⟨w1, r⟩
  cases r with
  | error e => simp [registerLoop, hr] at h
  | ok j =>
    obtain ⟨hj, hj1⟩ := registerNode_ok_counter w c n w1 j hr
    cases hk : currentKernelObj w1 c with
    | error e => simp [registerLoop, hr, hk] at h
    | ok o =>
      cases o with
      | none =>
        simp [registerLoop, hr, hk] at h
        obtain ⟨rfl, rfl⟩ := h
        exact ⟨hj, hj1⟩
      | some kb =>
        rcases ha : kbAddLoop w1 kb n with ⟨w2, ra⟩
        have h2 : effNextNodeId w2 c = effNextNodeId w1 c := by
          have := effNextNodeId_kbAddLoop w1 kb n c
          rw [ha] at this
          exact this
        cases ra with
        | error e => simp [registerLoop, hr, hk, ha] at h
        | ok u =>
          simp [registerLoop, hr, hk, ha] at h
          obtain ⟨rfl, rfl⟩ := h
          exact ⟨hj, by rw [h2]; exact hj1⟩

theorem effNextNodeId_registerKernel_le (w : World) (c' k c : Nat) :
    effNextNodeId w c ≤ effNextNodeId ((registerKernel w c' k).1) c := by
  cases hk : effCurrentKernelId w c' with
  | some kid => simp [registerKernel, hk]
  | none =>
    by_cases hid : (w.kbId k).isSome
    · simp [registerKernel, hk, hid]
    · have hpre : effNextNodeId (kernelPreRegister w c' k) c =
        effNextNodeId w c := rfl
      rcases hr : registerLoop (kernelPreRegister w c' k) c' (w.kbGrid k)
        with ⟨w2, r⟩
      have hm : effNextNodeId (kernelPreRegister w c' k) c ≤
          effNextNodeId w2 c := by
        have h0 := effNextNodeId_registerLoop_le (kernelPreRegister w c' k) c'
          (w.kbGrid k) c
        rw [hr] at h0
        exact h0
      cases r with
      | error e =>
        simp only [registerKernel, hk, hid, Bool.false_eq_true, if_false, hr]
        omega
      | ok j =>
        have hfin : effNextNodeId ({ w2 with
            instCurrentKernelId := fnSet w2.instCurrentKernelId c'
              (some (some (effNextKernelId w c'))) }) c =
            effNextNodeId w2 c := rfl
        simp only [registerKernel, hk, hid, Bool.false_eq_true, if_false, hr,
          hfin]
        omega

theorem effNextNodeId_ctxExitKernel (w : World) (c' c : Nat) :
    effNextNodeId ((ctxExitKernel w c').1) c = effNextNodeId w c := by
  cases hk : effCurrentKernelId w c' <;> simp [ctxExitKernel, hk, effNextNodeId]

theorem effNextNodeId_kbExitLoop (w : World) (k c : Nat) :
    effNextNodeId ((kbExitLoop w k).1) c = effNextNodeId w c := by
  by_cases h1 : w.kbCurrentLoop k = some (w.kbGrid k)
  · simp [kbExitLoop, h1]
  · cases h2 : w.kbCurrentLoop k with
    | none => simp [kbExitLoop, h1, h2]
    | some l =>
      have hne : l ≠ w.kbGrid k := by
        intro he
        exact h1 (by rw [h2, he])
      cases h3 : w.nodeParent l <;>
        simp [kbExitLoop, h1, h2, h3, hne, effNextNodeId]

theorem effNextNodeId_kbExitKernel (w : World) (k c : Nat) :
    effNextNodeId ((kbExitKernel w k).1) c = effNextNodeId w c := by
  by_cases h1 : w.kbInScope k = false
  · simp [kbExitKernel, h1]
  · by_cases h2 : w.kbCurrentLoop k ≠ some (w.kbGrid k) <;>
      simp [kbExitKernel, h1, h2, effNextNodeId]

/-- No graph operation ever decreases a context's effective
`_next_node_id`. -/
theorem stepOp_mono (w : World) (op : GraphOp) (c : Nat) :
    effNextNodeId w c ≤ effNextNodeId ((stepOp w op).1) c := by
  cases op with
  | regNode c' n =>
    have h := effNextNodeId_registerNode_le w c' n c
    rcases hr : registerNode w c' n with ⟨w1, r⟩
    rw [hr] at h
    cases r <;> simpa [stepOp, hr] using h
  | regStep c' n =>
    have h := effNextNodeId_registerStep_le w c' n c
    rcases hr : registerStep w c' n with ⟨w1, r⟩
    rw [hr] at h
    cases r <;> simpa [stepOp, hr] using h
  | regLoop c' n =>
    have h := effNextNodeId_registerLoop_le w c' n c
    rcases hr : registerLoop w c' n with ⟨w1, r⟩
    rw [hr] at h
    cases r <;> simpa [stepOp, hr] using h
  | regKernel c' k => simpa [stepOp] using effNextNodeId_registerKernel_le w c' k c
  | exitKernelC c' => simp [stepOp, effNextNodeId_ctxExitKernel]
  | exitLoopK k => simp [stepOp, effNextNodeId_kbExitLoop]
  | exitKernelK k => simp [stepOp, effNextNodeId_kbExitKernel]

/-- A node registration reported by `stepOp` hands out exactly the acting
context's effective counter and bumps it one past the assigned id. -/
theorem stepOp_emit (w : World) (op : GraphOp) (w' : World) (c i : Nat)
    (h : stepOp w op = (w', some (c, i))) :
    i = effNextNodeId w c ∧ effNextNodeId w' c = i + 1 := by
  cases op with
  | regNode c' n =>
    rcases hr : registerNode w c' n with ⟨w1, r⟩
    cases r with
    | error e => simp [stepOp, hr] at h
    | ok j =>
      simp [stepOp, hr] at h
      obtain ⟨rfl, rfl, rfl⟩ := h
      exact registerNode_ok_counter _ _ _ _ _ hr
  | regStep c' n =>
    rcases hr : registerStep w c' n with ⟨w1, r⟩
    cases r with
    | error e => simp [stepOp, hr] at h
    | ok j =>
      simp [stepOp, hr] at h
      obtain ⟨rfl, rfl, rfl⟩ := h
      exact registerStep_ok_counter _ _ _ _ _ hr
  | regLoop c' n =>
    rcases hr : registerLoop w c' n with ⟨w1, r⟩
    cases r with
    | error e => simp [stepOp, hr] at h
    | ok j =>
      simp [stepOp, hr] at h
      obtain ⟨rfl, rfl, rfl⟩ := h
      exact registerLoop_ok_counter _ _ _ _ _ hr
  | regKernel c' k => simp [stepOp] at h
  | exitKernelC c' => simp [stepOp] at h
  | exitLoopK k => simp [stepOp] at h
  | exitKernelK k => simp [stepOp] at h

/-- C2: within a single `CnCContext` instance, the node ids handed out by
`register_node` over any trace of graph operations — steps, loops and
kernels, interleaved with any other contexts' operations — are strictly
increasing in registration order, hence pairwise distinct. -/
theorem register_node_ids_strictly_increasing (w : World)
    (ops : List GraphOp) (c : Nat) :
    List.Pairwise (· < ·) (idsOf c (runOps w ops).2) ∧
    (idsOf c (runOps w ops).2).Nodup := by
  have main : ∀ ops : List GraphOp, ∀ w c,
      (∀ i ∈ idsOf c (runOps w ops).2, effNextNodeId w c ≤ i) ∧
      List.Pairwise (· < ·) (idsOf c (runOps w ops).2) := by
    intro ops
    induction ops with
    | nil => intro w c; simp [runOps, idsOf]
    | cons op ops ih =>
      intro w c
      rcases hs : stepOp w op with ⟨w1, em⟩
      have hmono : effNextNodeId w c ≤ effNextNodeId w1 c := by
        have := stepOp_mono w op c
        rw [hs] at this
        exact this
      cases em with
      | none =>
        have hrun : runOps w (op :: ops) = runOps w1 ops := by
          simp [runOps, hs]
        rw [hrun]
        obtain ⟨ihlb, ihpw⟩ := ih w1 c
        exact ⟨fun i hi => le_trans hmono (ihlb i hi), ihpw⟩
      | some p =>
        obtain ⟨c', i⟩ := p
        have hrun : (runOps w (op :: ops)).2 =
            (c', i) :: (runOps w1 ops).2 := by
          simp [runOps, hs]
        rw [hrun, idsOf_cons]
        obtain ⟨ihlb, ihpw⟩ := ih w1 c
        by_cases hc : c' = c
        · subst hc
          obtain ⟨hi0, hi1⟩ := stepOp_emit w op w1 c' i hs
          simp only [if_pos rfl]
          refine ⟨?_, ?_⟩
          · intro j hj
            rcases List.mem_cons.mp hj with h' | h'
            · subst h'; omega
            · have := ihlb j h'
              omega
          · refine List.Pairwise.cons ?_ ihpw
            intro j hj
            have := ihlb j hj
            omega
        · simp only [if_neg hc]
          exact ⟨fun i hi => le_trans hmono (ihlb i hi), ihpw⟩
  have h := (main ops w c).2
  exact ⟨h, h.imp (fun hlt => Nat.ne_of_lt hlt)⟩

/-- C9: calling `register_node` on a node whose id is already set raises
`RuntimeError` as its very first statement: the returned world is the input
world — the `_next_node_id` counter is not advanced and the node registry
is untouched. -/
theorem register_node_duplicate_no_effect (w : World) (c n : Nat)
    (h : (w.nodeId n).isSome = true) :
    registerNode w c n = (w, .error .runtimeDupNode) := by
  simp [registerNode, h]

/-- Witness for C9: registering node `0` twice (through any contexts) —
the second call fails and changes nothing. -/
theorem register_node_duplicate_no_effect_witness :
    (((registerNode freshWorld 0 0).1.nodeId 0).isSome = true) ∧
    registerNode (registerNode freshWorld 0 0).1 1 0 =
      ((registerNode freshWorld 0 0).1, .error .runtimeDupNode) := by
  refine ⟨by decide, ?_⟩
  exact register_node_duplicate_no_effect (registerNode freshWorld 0 0).1 1 0
    (by decide)

/-- C10: `node_registry` and `_next_node_id` live on the `CnCContext` class,
not on instances: starting from pristine class state, two distinct fresh
contexts each registering their own first node both get id `0` (each
`+=` only creates a per-instance shadow of the untouched class counter),
and the single shared `node_registry` ends up mapping id `0` to the
later-registered node, replacing the first context's entry. -/
theorem node_registry_shared_across_contexts :
    (runOps freshWorld [.regNode 0 0, .regNode 1 1]).2 = [(0, 0), (1, 0)] ∧
    ((runOps freshWorld [.regNode 0 0, .regNode 1 1]).1.nodeId 0 = some 0 ∧
     (runOps freshWorld [.regNode 0 0, .regNode 1 1]).1.nodeId 1 = some 0) ∧
    (runOps freshWorld [.regNode 0 0, .regNode 1 1]).1.nodeRegistry =
      [(0, 1)] := by
  refine ⟨?_, ⟨?_, ?_⟩, ?_⟩ <;> decide

/-- C3 counterexample: with kernel `0` open on context `0` and the current
scope the nested loop `1` (not the grid loop `0`), the context-level
`exit_kernel` — the close path invoked by the kernel launcher — succeeds
instead of raising a ScopeError. -/
theorem close_kernel_nested_scope_succeeds :
    nestedScopeWorld.kbCurrentLoop 0 ≠ some (nestedScopeWorld.kbGrid 0) ∧
    (ctxExitKernel nestedScopeWorld 0).2 = .ok () := by
  refine ⟨by decide, ?_⟩
  rfl

/-- C3 (amended): `KernelBuilder.exit_kernel` succeeds exactly when the
builder is still in kernel scope and its current loop is the grid loop, and
when the current loop is not the grid loop it raises before any mutation,
leaving the scope pointer (and all other state) unchanged; but
`CnCContext.exit_kernel`, the close path the kernel launcher actually
calls, succeeds exactly when some kernel id is set, regardless of how many
nested loops are still open. -/
theorem exit_kernel_scope_discipline (w : World) (k c : Nat) :
    ((kbExitKernel w k).2 = .ok () ↔
      (w.kbInScope k = true ∧ w.kbCurrentLoop k = some (w.kbGrid k))) ∧
    (w.kbCurrentLoop k ≠ some (w.kbGrid k) → (kbExitKernel w k).1 = w) ∧
    ((ctxExitKernel w c).2 = .ok () ↔ (effCurrentKernelId w c).isSome = true) := by
  refine ⟨?_, ?_, ?_⟩
  · by_cases h1 : w.kbInScope k = false
    · simp [kbExitKernel, h1]
    · have h1' : w.kbInScope k = true := by
        cases h : w.kbInScope k
        · exact absurd h h1
        · rfl
      by_cases h2 : w.kbCurrentLoop k = some (w.kbGrid k)
      · simp [kbExitKernel, h1, h2, h1']
      · simp [kbExitKernel, h1, h2]
  · intro h2
    by_cases h1 : w.kbInScope k = false <;> simp [kbExitKernel, h1, h2]
  · rcases h : effCurrentKernelId w c with _ | kid <;> simp [ctxExitKernel, h]

/-- Witness for C3's amended claim at `nestedScopeWorld`: the builder-level
close fails and leaves the world unchanged, the context-level close
succeeds. -/
theorem exit_kernel_scope_discipline_witness :
    (kbExitKernel nestedScopeWorld 0).1 = nestedScopeWorld ∧
    (ctxExitKernel nestedScopeWorld 0).2 = .ok () ∧
    ¬ (kbExitKernel nestedScopeWorld 0).2 = .ok () := by
  refine ⟨(exit_kernel_scope_discipline nestedScopeWorld 0 0).2.1 (by decide),
    ((exit_kernel_scope_discipline nestedScopeWorld 0 0).2.2).mpr (by decide),
    ?_⟩
  intro h
  have := ((exit_kernel_scope_discipline nestedScopeWorld 0 0).1).mp h
  have h2 := this.2
  simp [nestedScopeWorld, freshWorld] at h2

/-- C4 counterexample: with no kernel open (pristine context), recording a
step and opening a loop both complete normally — the node is registered and
id `0` is returned; no ScopeError is raised. -/
theorem register_step_no_kernel_completes_counterexample :
    (registerStep freshWorld 0 0).2 = .ok 0 ∧
    (registerLoop freshWorld 0 0).2 = .ok 0 := by
  constructor <;> rfl

/-- C4 (amended): when no kernel is open in the context, `register_step`
and `register_loop` do not fail: each registers the node (assigning it the
context's next id) and simply skips attaching it to any kernel, because
`current_kernel` is `None` and the attach branch is guarded by
`if self.current_kernel is not None`. -/
theorem register_without_kernel_completes (w : World) (c n : Nat)
    (hk : effCurrentKernelId w c = none)
    (hid : w.nodeId n = none)
    (hreg : registryHasNode w n = false) :
    (registerStep w c n).2 = .ok (effNextNodeId w c) ∧
    ((registerStep w c n).1).nodeId n = some (effNextNodeId w c) ∧
    (registerLoop w c n).2 = .ok (effNextNodeId w c) ∧
    ((registerLoop w c n).1).nodeId n = some (effNextNodeId w c) := by
  have hid' : (w.nodeId n).isSome = false := by simp [hid]
  have hreg' : registryHasNode (assignNodeId w c n) n = false := by
    simpa [registryHasNode, assignNodeId] using hreg
  have hproj1 : (assignNodeId w c n).nodeId =
      fnSet w.nodeId n (some (effNextNodeId w c)) := rfl
  have hproj2 : (assignNodeId w c n).instCurrentKernelId =
      w.instCurrentKernelId := rfl
  have hk' : (w.instCurrentKernelId c).getD none = none := hk
  refine ⟨?_, ?_, ?_, ?_⟩ <;>
    simp [registerStep, registerLoop, registerNode, hid', hreg',
      currentKernelObj, effCurrentKernelId, fnSet, hk', hproj1, hproj2]

/-- Witness for C4's amended claim on the pristine world. -/
theorem register_without_kernel_completes_witness :
    (registerStep freshWorld 0 0).2 = .ok (effNextNodeId freshWorld 0) ∧
    ((registerStep freshWorld 0 0).1).nodeId 0 =
      some (effNextNodeId freshWorld 0) ∧
    (registerLoop freshWorld 0 0).2 = .ok (effNextNodeId freshWorld 0) ∧
    ((registerLoop freshWorld 0 0).1).nodeId 0 =
      some (effNextNodeId freshWorld 0) :=
  register_without_kernel_completes freshWorld 0 0 (by decide) (by decide)
    (by decide)

/-- C7 counterexample: the dump of the scenario
`open_kernel("K"); open_loop(); record_step(defA, tag=(0,)); close_loop();
close_kernel()` has 4 lines, not 3: the kernel's grid loop gets a line of
its own between the kernel and the opened loop. -/
theorem c7_dump_is_not_three_lines :
    (kernelDumpLines c7W5 0 10).length = 4 ∧
    (kernelDumpLines c7W5 0 10).length ≠ 3 := by
  constructor <;> decide

/-- C7 (amended): every operation of the scenario succeeds, and the dump
yields exactly 4 lines — the Kernel `K`, its grid loop, the opened loop,
and the step of `defA` — in that order with strictly deeper indentation. -/
theorem c7_dump_scenario :
    (registerKernel c7Start 0 0).2 = .ok 0 ∧
    (registerLoop c7W1 0 1).2 = .ok 1 ∧
    (registerStep c7W2 0 2).2 = .ok 2 ∧
    (kbExitLoop c7W3 0).2 = .ok () ∧
    (ctxExitKernel c7W4 0).2 = .ok () ∧
    kernelDumpLines c7W5 0 10 =
      ["[[[Kernel]]] K (id=0)",
       "<GridLoop> SymInt(tile0) [None] id=0",
       "\t<KernelLoop> SymInt(tile1) [None] id=1",
       "\t\t<Step> defA [(0,)] id=2"] := by
  refine ⟨?_, ?_, ?_, ?_, ?_, ?_⟩ <;> rfl

/-- C6 counterexample: flattening the outer loop `ij` with body
`[NestedLoop{StepB}, StepC]` draws the edge into StepC (node 3) with label
`ij` — the *pre-loop* label owner, here the outer loop's own induction
variable — and not with StepB's target label (StepB is a `Module` step and
has none): the visitor does not keep what the last non-loop descendant
inside the nested loop produced. -/
theorem visitor_keeps_preloop_label_owner :
    ((visitAst vInit demoOuter none none).1).edges.filter (fun e => e.dst = 3) =
      [⟨2, 3, some "ij", false⟩] ∧
    AstNode.targetLabel demoStep = none ∧
    (some "ij" : Option String) ≠ AstNode.targetLabel demoStep := by
  refine ⟨?_, rfl, by decide⟩
  decide

/-- C6 (amended): `label_owner` is local to each loop visit and is left
unchanged by a nested loop: visiting a loop starts the owner at the loop
itself, so its first drawn child's incoming edge is labeled by the loop's
induction target; after a nested loop the owner keeps its pre-nested-loop
value.  Concretely: for body `[NestedLoop{StepB}, StepC]` the edge into
StepC is labeled by the outer loop's induction target `ij`; for the claim's
body `[StepA, NestedLoop{StepB}, StepC]` the owner after the nested loop is
still StepA, a `Module` step with no target, so the edge into StepC is
unlabeled — in neither case is it labeled by StepB's target. -/
theorem visitor_label_owner_flow :
    (visitAst vInit demoOuter none none).1 =
      ⟨4, [0, 1, 2, 3],
        [⟨0, 1, some "ij", false⟩,
         ⟨1, 2, some "k", false⟩,
         ⟨2, 1, none, true⟩,
         ⟨2, 3, some "ij", false⟩,
         ⟨3, 0, none, true⟩]⟩ ∧
    (visitAst vInit demoOuter3 none none).1 =
      ⟨5, [0, 1, 2, 3, 4],
        [⟨0, 1, some "ij", false⟩,
         ⟨1, 2, none, false⟩,
         ⟨2, 3, some "k", false⟩,
         ⟨3, 2, none, true⟩,
         ⟨3, 4, none, false⟩,
         ⟨4, 0, none, true⟩]⟩ := by
  constructor <;> decide

/-- C5 counterexample: constructing a step whose declared tag parameter
`z` is not among its parameters `[x, y]` succeeds — no LookupFailure is
raised at step-definition creation time; the `ValueError` only appears when
the tag is retrieved at call time. -/
theorem step_create_missing_tag_param_succeeds :
    stepCreate "f" ["x", "y"] (some (.inl "z")) =
      .ok ⟨"f", ["x", "y"], some "z", none⟩ ∧
    retrieveTag ⟨"f", ["x", "y"], some "z", none⟩ [.intC 0, .intC 1] [] =
      .error .valueTagNotParam := by
  constructor <;> rfl

/-- C5 (amended): for a step definition whose declared tag-source parameter
name is missing from its parameter list, creation nevertheless succeeds
(the decorator performs no such check), and the `ValueError` is raised at
call time by `_retrive_tag_from_args` — and then only when the tag name is
not supplied as a keyword argument either. -/
theorem step_missing_tag_param_fails_at_call_time (funcName tn : String)
    (params : List String) (args : List SymCoord)
    (kwargs : List (String × SymCoord))
    (hp : tn ∉ params) (hkw : lookupKw kwargs tn = none) :
    stepCreate funcName params (some (.inl tn)) =
      .ok ⟨funcName, params, some tn, none⟩ ∧
    retrieveTag ⟨funcName, params, some tn, none⟩ args kwargs =
      .error .valueTagNotParam := by
  refine ⟨rfl, ?_⟩
  simp [retrieveTag, retrieveTagDynamic, hkw, hp]

/-- Witness for C5's amended claim at a concrete step definition. -/
theorem step_missing_tag_param_fails_at_call_time_witness :
    stepCreate "g" ["a"] (some (.inl "tag0")) =
      .ok ⟨"g", ["a"], some "tag0", none⟩ ∧
    retrieveTag ⟨"g", ["a"], some "tag0", none⟩ [.noneC] [("a", .intC 5)] =
      .error .valueTagNotParam :=
  step_missing_tag_param_fails_at_call_time "g" "tag0" ["a"] [.noneC]
    [("a", .intC 5)] (by decide) (by decide)
